import Mathlib

/-!
Verification of the Survey Response Explorer (src/vis.py): a shallow
embedding of its table loader, identifier-column default, selection state
machine and the Detail / Question renderers, with theorems checking the
documented behaviour.
-/

namespace Vis

/-- A table cell; `none` models a pandas missing value (NaN), which is what an
empty CSV field parses to and what `pd.isna` detects at lines 183 and 251. -/
abbrev Cell := Option String

/-- The in-memory table (the pandas DataFrame `df`): a header of column names
and the rows, each row listing its cells in header order. -/
structure Table where
  header : List String
  rows : List (List Cell)
deriving DecidableEq

/-- Number of rows of the table (`len(df)`, also the range of `df.index`). -/
def Table.rowCount (t : Table) : Nat := t.rows.length

/-- Label-based cell access `row_data[col_name]` (lines 122, 181, 248, 249):
the cell of column `c` in `row`, looked up at the position of `c` in
`header`; positions outside the row give NaN. -/
def rowVal (header : List String) (row : List Cell) (c : String) : Cell :=
  (row[header.indexOf c]?).getD none

/-- The values of column `c` down the table (the pandas Series `df[c]`). -/
def colValues (t : Table) (c : String) : List Cell :=
  t.rows.map (fun r => rowVal t.header r c)

/-- A CSV document in structural form, per the external-interface contract of
the spec: first row is the header, later records are data rows. -/
structure CSV where
  header : List String
  records : List (List String)
deriving DecidableEq

/-- An empty CSV field parses to a missing value (NaN). -/
def strToCell (s : String) : Cell := if s = "" then none else some s

/-- Models the external parser `pd.read_csv` (lines 46-51) on structurally
valid input: the first row becomes the column names, each record becomes a
row, and empty fields become NaN. -/
def read_csv (c : CSV) : Table :=
  ⟨c.header, c.records.map (fun r => r.map strToCell)⟩

/-- Lines 56-59 of vis.py: if no column is named `Row_ID`, prepend one holding
the positional index 0..N-1 (`df.reset_index` inserts the running index as the
first column, then it is renamed from `index` to `Row_ID`); integer cells are
modelled as their decimal strings. -/
def addRowId (t : Table) : Table :=
  if "Row_ID" ∈ t.header then t
  else ⟨"Row_ID" :: t.header,
        ((List.range t.rows.length).zip t.rows).map
          (fun p => some (toString p.1) :: p.2)⟩

/-- The Table Loader (lines 46-59): parse the upload, then add the synthetic
`Row_ID` column when missing. -/
def loadTable (c : CSV) : Table := addRowId (read_csv c)

/-- Does `pat` occur at the start of `s`? (character-list version). -/
def leadsWith : List Char → List Char → Bool
  | [], _ => true
  | _ :: _, [] => false
  | p :: ps, c :: cs => p == c && leadsWith ps cs

/-- Substring test on character lists, the Python `in` operator on strings. -/
def containsSub (pat : List Char) : List Char → Bool
  | [] => pat.isEmpty
  | c :: cs => leadsWith pat (c :: cs) || containsSub pat cs

/-- The line 65 predicate: `"name" in col.lower()`, with ASCII case folding by
`Char.toLower` as Python `str.lower` performs on ASCII column names. -/
def nameLike (col : String) : Bool :=
  containsSub "name".toList (col.toList.map Char.toLower)

/-- Line 65: `possible_names = [col for col in df.columns if "name" in col.lower()]`. -/
def possible_names (cols : List String) : List String := cols.filter nameLike

/-- Line 66: `df.columns.get_loc(possible_names[0]) if possible_names else 0`;
`get_loc` is the position of a name in the column index. -/
def default_name_index (cols : List String) : Nat :=
  match possible_names cols with
  | [] => 0
  | c :: _ => cols.indexOf c

/-- The three view modes of the radio control (line 89). -/
inductive ViewMode where
  | overview
  | detail
  | questionAnalysis
deriving DecidableEq

/-- The session state the script reads and writes: `selected_index`
(initialised at line 14) and the radio key `view_mode_selector` (line 90). -/
structure SessionState where
  selected_index : Nat
  view_mode_selector : ViewMode
deriving DecidableEq

/-- A grid selection event stored under the key `response_grid`: the clicked
row positions `selection["rows"]` (single-row mode keeps at most one). -/
structure GridSelection where
  rows : List Nat
deriving DecidableEq

/-- Lines 78-82: when a `response_grid` event with a nonempty row list is
pending, set `selected_index` to its first row and force Individual Detail
View; otherwise leave the state alone. -/
def applyPendingSelection (s : SessionState) (grid : Option GridSelection) :
    SessionState :=
  match grid with
  | none => s
  | some g =>
    match g.rows with
    | [] => s
    | i :: _ => { s with selected_index := i, view_mode_selector := ViewMode.detail }

/-- The user picking a value in the view-mode radio (lines 87-91): Streamlit
stores the chosen value under the widget key `view_mode_selector`; nothing on
this code path touches `selected_index`. -/
def applyModeChoice (s : SessionState) (m : ViewMode) : SessionState :=
  { s with view_mode_selector := m }

/-- Lines 176-192: the Detail Renderer loop over `df.columns` for one row:
skip the synthetic `Row_ID` column, skip NaN cells, and otherwise emit the
(column name, cell value) block, in column order. -/
def detailBlocksRow (header : List String) (row : List Cell) :
    List (String × String) :=
  header.filterMap (fun c =>
    if c = "Row_ID" then none
    else (rowVal header row c).map (fun v => (c, v)))

/-- Line 203: the question choices offered in Question Analysis View,
`available_cols = [c for c in df.columns if c != "Row_ID"]`. -/
def available_cols (t : Table) : List String :=
  t.header.filter (fun c => c ≠ "Row_ID")

/-- Lines 246-259: the Question Renderer loop over `df.iterrows()`: skip rows
whose cell in the selected column is NaN, and otherwise emit the
(identifier-column value, answer value) block, in row order. -/
def questionBlocks (t : Table) (name_col q : String) : List (Cell × String) :=
  t.rows.filterMap (fun r =>
    (rowVal t.header r q).map (fun a => (rowVal t.header r name_col, a)))

/-- Outcome of the Individual Detail branch within one render pass. -/
inductive DetailOutcome where
  | other
  | failure
  | blocks (i : Nat) (bs : List (String × String))
deriving DecidableEq

/-- One script run after the table is loaded (lines 75-192): first any pending
`response_grid` event is applied (lines 78-82), then the view-mode radio is
constructed and read (lines 87-91), then the chosen branch renders. In Detail
mode the record selectbox receives `selected_index` as its default (line 128)
and `df.iloc` fetches that row (line 133); Streamlit raises an exception when
the default index lies outside the option range and `iloc` raises outside the
row range, both modelled as `failure`. Returns the final session state, the
value displayed by the mode widget, and the detail outcome. -/
def renderPass (t : Table) (grid : Option GridSelection) (s : SessionState) :
    SessionState × ViewMode × DetailOutcome :=
  let s1 := applyPendingSelection s grid
  match s1.view_mode_selector with
  | ViewMode.detail =>
    match t.rows[s1.selected_index]? with
    | some row =>
      (s1, ViewMode.detail, DetailOutcome.blocks s1.selected_index (detailBlocksRow t.header row))
    | none => (s1, ViewMode.detail, DetailOutcome.failure)
  | m => (s1, m, DetailOutcome.other)

/-- Claim C2 as stated: the blocks of a row in column order, excluding the
chosen identifier column `name_col` and the empty cells. -/
def claimDetailBlocks (header : List String) (row : List Cell)
    (name_col : String) : List (String × String) :=
  (header.zip row).filterMap (fun p =>
    if p.1 = name_col then none
    else p.2.map (fun v => (p.1, v)))

/-- The amended description of the Detail blocks: non-empty cells of the row
in column order, excluding the synthetic `Row_ID` column, independent of the
identifier-column choice. -/
def specDetailBlocks (header : List String) (row : List Cell) :
    List (String × String) :=
  (header.zip row).filterMap (fun p =>
    if p.1 = "Row_ID" then none
    else p.2.map (fun v => (p.1, v)))

/-! ### Shared helper lemmas -/

theorem rowVal_cons_self (header : List String) (row : List Cell) (c : String)
    (v : Cell) : rowVal (c :: header) (v :: row) c = v := by
  simp [rowVal, List.indexOf_cons_self]

theorem rowVal_cons_ne (header : List String) (row : List Cell) (c0 c : String)
    (v0 : Cell) (h : c ≠ c0) :
    rowVal (c0 :: header) (v0 :: row) c = rowVal header row c := by
  simp [rowVal, List.indexOf_cons_ne header (Ne.symm h)]

theorem findIdx_of_filter_eq_cons {p : String → Bool} :
    ∀ {cols : List String} {c : String} {cs : List String},
      cols.filter p = c :: cs → cols.findIdx? p = some (cols.indexOf c) := by
  intro cols
  induction cols with
  | nil => intro c cs h; simp at h
  | cons a as ih =>
    intro c cs h
    cases hpa : p a with
    | true =>
      rw [List.filter_cons_of_pos hpa] at h
      obtain ⟨rfl, -⟩ := List.cons.inj h
      simp [List.findIdx?_cons, hpa, List.indexOf_cons_self]
    | false =>
      rw [List.filter_cons_of_neg (by simp [hpa])] at h
      have hc : p c = true := List.of_mem_filter (h ▸ List.mem_cons_self c cs)
      have hac : a ≠ c := by
        intro he
        rw [he, hc] at hpa
        exact Bool.true_eq_false.mp hpa
      simp only [List.findIdx?_cons, hpa, if_false, Bool.false_eq_true]
      rw [List.indexOf_cons_ne as hac]
      simp [ih h]

theorem filterMap_map_eq_filter_map {α β γ : Type} (f : α → Option β)
    (g : α → β → γ) (d : β) :
    ∀ l : List α,
      l.filterMap (fun r => (f r).map (g r)) =
        (l.filter (fun r => (f r).isSome)).map (fun r => g r ((f r).getD d)) := by
  intro l
  induction l with
  | nil => rfl
  | cons a as ih =>
    cases hf : f a with
    | none => simp [List.filterMap_cons, List.filter_cons, hf, ih]
    | some b => simp [List.filterMap_cons, List.filter_cons, hf, ih]

/-! ### Concrete tables and states used as witnesses and counterexamples -/

/-- A 2-row loaded table (as produced from a 2-record CSV). -/
def tEx2 : Table := ⟨["Row_ID", "Name"], [[some "0", some "A"], [some "1", some "B"]]⟩

/-- A session state carrying a stale selected index 4, as persists after a
larger file was replaced by a smaller one. -/
def sStale : SessionState := ⟨4, ViewMode.detail⟩

/-- The header of the running example: synthetic id, a name and a score. -/
def hdrEx : List String := ["Row_ID", "Name", "Score"]

/-- One fully answered row of the running example. -/
def rowEx : List Cell := [some "0", some "Alice", some "8"]

/-- The scenario table of the spec: 5 rows with columns Name and Score where
exactly the second row has an empty Score cell. -/
def tEx5 : Table :=
  ⟨hdrEx,
   [[some "0", some "Alice", some "8"],
    [some "1", some "Bob", none],
    [some "2", some "Cara", some "10"],
    [some "3", some "Dan", some "3"],
    [some "4", some "Evan", some "9"]]⟩

/-- A CSV without a Row_ID column. -/
def csvNoId : CSV := ⟨["Name"], [["Alice"]]⟩

/-- A CSV that already has a Row_ID column. -/
def csvWithId : CSV := ⟨["Row_ID", "Name"], [["0", "Alice"], ["1", "Bob"]]⟩

/-! ### Claims -/

/-- Claim C1: the spec requires an out-of-range selected row index to be
clamped to 0 before the Detail Renderer runs. The code has no such clamp:
with a freshly loaded 2-row table and a stale selected index 4 persisting in
session state, the Detail render pass fails (the record selectbox and
`df.iloc` receive the out-of-range index and raise) instead of clamping to 0
and rendering row 0. -/
theorem stale_index_not_clamped :
    renderPass tEx2 none sStale = (sStale, ViewMode.detail, DetailOutcome.failure) ∧
    ¬ sStale.selected_index < tEx2.rowCount :=
  ⟨rfl, by decide⟩

/-- Claim C4: a pending row-click event on row i in Overview sets the selected
row index to i and the view mode to Individual Detail View, and the following
Detail render shows exactly row i. -/
theorem rowClick_selects (t : Table) (s : SessionState) (i : Nat)
    (rest : List Nat) :
    (applyPendingSelection s (some ⟨i :: rest⟩)).selected_index = i ∧
    (applyPendingSelection s (some ⟨i :: rest⟩)).view_mode_selector = ViewMode.detail ∧
    ∀ row, t.rows[i]? = some row →
      renderPass t (some ⟨i :: rest⟩) s =
        (⟨i, ViewMode.detail⟩, ViewMode.detail,
         DetailOutcome.blocks i (detailBlocksRow t.header row)) := by
  refine ⟨rfl, rfl, ?_⟩
  intro row h
  simp [renderPass, applyPendingSelection, h]

/-- Witness for rowClick_selects: clicking row 1 of the 2-row table. -/
theorem rowClick_selects_witness :
    tEx2.rows[1]? = some [some "1", some "B"] ∧
    renderPass tEx2 (some ⟨[1]⟩) ⟨0, ViewMode.overview⟩ =
      (⟨1, ViewMode.detail⟩, ViewMode.detail,
       DetailOutcome.blocks 1 (detailBlocksRow tEx2.header [some "1", some "B"])) :=
  ⟨rfl, (rowClick_selects tEx2 ⟨0, ViewMode.overview⟩ 1 []).2.2 [some "1", some "B"] rfl⟩

/-- Claim C5: within one render pass any pending row-click event is applied to
the state strictly before the mode and row widgets are constructed: the mode
widget displays the post-event view mode and any Detail rendering uses the
post-event selected row, so neither widget shows a stale value. -/
theorem renderPass_reads_events_first (t : Table) (grid : Option GridSelection)
    (s : SessionState) :
    (renderPass t grid s).2.1 = (applyPendingSelection s grid).view_mode_selector ∧
    (∀ i bs, (renderPass t grid s).2.2 = DetailOutcome.blocks i bs →
      i = (applyPendingSelection s grid).selected_index) := by
  cases hm : (applyPendingSelection s grid).view_mode_selector with
  | detail =>
    cases hr : t.rows[(applyPendingSelection s grid).selected_index]? with
    | some row =>
      constructor
      · simp [renderPass, hm, hr]
      · intro i bs hb
        simp [renderPass, hm, hr] at hb
        exact hb.1.symm
    | none => exact ⟨by simp [renderPass, hm, hr], by intro i bs hb; simp [renderPass, hm, hr] at hb⟩
  | overview =>
    exact ⟨by simp [renderPass, hm], by intro i bs hb; simp [renderPass, hm] at hb⟩
  | questionAnalysis =>
    exact ⟨by simp [renderPass, hm], by intro i bs hb; simp [renderPass, hm] at hb⟩

/-- Witness for renderPass_reads_events_first: a pass with a pending click on
row 1 renders row 1, the post-event selected index. -/
theorem renderPass_reads_events_first_witness :
    (1 : Nat) = (applyPendingSelection ⟨0, ViewMode.overview⟩ (some ⟨[1]⟩)).selected_index :=
  (renderPass_reads_events_first tEx2 (some ⟨[1]⟩) ⟨0, ViewMode.overview⟩).2 1
    (detailBlocksRow tEx2.header [some "1", some "B"]) rfl

/-- Claim C9: picking a view mode sets the active mode to the chosen mode and
leaves the selected row index unchanged, both in session state and through the
following render pass. -/
theorem modeChoice_frame (t : Table) (s : SessionState) (m : ViewMode) :
    (applyModeChoice s m).view_mode_selector = m ∧
    (applyModeChoice s m).selected_index = s.selected_index ∧
    (renderPass t none (applyModeChoice s m)).2.1 = m ∧
    (renderPass t none (applyModeChoice s m)).1.selected_index = s.selected_index := by
  refine ⟨rfl, rfl, ?_, ?_⟩ <;>
    cases m <;>
      first
        | rfl
        | cases hr : t.rows[s.selected_index]? <;>
            simp [renderPass, applyPendingSelection, applyModeChoice, hr]

/-- Claim C10: a user-supplied Row_ID column is treated as the synthetic
identifier: the Detail Renderer never emits a block for it, whatever its cells
hold, and it is never offered among the selectable questions. -/
theorem rowId_never_rendered (t : Table) (row : List Cell)
    (_h : "Row_ID" ∈ t.header) :
    (∀ v, ("Row_ID", v) ∉ detailBlocksRow t.header row) ∧
    "Row_ID" ∉ available_cols t := by
  constructor
  · intro v hv
    simp only [detailBlocksRow, List.mem_filterMap] at hv
    rcases hv with ⟨c, hc, hfc⟩
    by_cases hcr : c = "Row_ID"
    · simp [hcr] at hfc
    · simp only [hcr, if_false] at hfc
      rcases Option.map_eq_some'.mp hfc with ⟨w, -, he⟩
      exact hcr (congrArg Prod.fst he)
  · intro hmem
    rw [available_cols, List.mem_filter] at hmem
    simp at hmem

/-- Witness for rowId_never_rendered on the concrete 2-row table. -/
theorem rowId_never_rendered_witness :
    "Row_ID" ∈ tEx2.header ∧ "Row_ID" ∉ available_cols tEx2 :=
  ⟨by decide, (rowId_never_rendered tEx2 [some "0", some "A"] (by decide)).2⟩

/-- Key lemma: when column names are unique and the row is full width,
iterating the header with label-based lookup is the same as iterating the
(name, cell) pairs positionally. -/
theorem filterMap_rowVal_zip {γ : Type} (F : String → Cell → Option γ) :
    ∀ (header : List String) (row : List Cell), header.Nodup →
      row.length = header.length →
      header.filterMap (fun c => F c (rowVal header row c)) =
        (header.zip row).filterMap (fun p => F p.1 p.2) := by
  intro header
  induction header with
  | nil => intro row _ _; rfl
  | cons c cs ih =>
    intro row hnd hlen
    cases row with
    | nil => simp at hlen
    | cons v vs =>
      obtain ⟨hc, hnd2⟩ := List.nodup_cons.mp hnd
      have hlen2 : vs.length = cs.length := by simpa using hlen
      have htail : cs.filterMap (fun c2 => F c2 (rowVal (c :: cs) (v :: vs) c2)) =
          cs.filterMap (fun c2 => F c2 (rowVal cs vs c2)) :=
        List.filterMap_congr (fun x hx => by
          rw [rowVal_cons_ne _ _ _ _ _ (fun he => hc (by rw [← he]; exact hx))])
      simp only [List.zip_cons_cons, List.filterMap_cons, rowVal_cons_self]
      rw [htail, ih vs hnd2 hlen2]

/-- Claim C2 as stated is false on the code: with identifier column `Name`
chosen, the Detail Renderer still emits the Name block (only `Row_ID` is
skipped), so its output differs from the claimed one. -/
theorem detail_excludes_identifier_false :
    detailBlocksRow hdrEx rowEx ≠ claimDetailBlocks hdrEx rowEx "Name" ∧
    ("Name", "Alice") ∈ detailBlocksRow hdrEx rowEx := by
  decide

/-- Claim C2 (amended): for a table with unique column names and a full-width
row, the Detail Renderer emits exactly the (column name, cell value) pairs
whose cell is non-empty, in original column order, excluding the synthetic
`Row_ID` column; the identifier-column choice plays no role. -/
theorem detail_blocks_exclude_rowId (header : List String) (row : List Cell)
    (hnd : header.Nodup) (hlen : row.length = header.length) :
    detailBlocksRow header row = specDetailBlocks header row :=
  filterMap_rowVal_zip
    (fun c cell => if c = "Row_ID" then none else cell.map (fun v => (c, v)))
    header row hnd hlen

/-- Witness for detail_blocks_exclude_rowId on the running example row. -/
theorem detail_blocks_exclude_rowId_witness :
    hdrEx.Nodup ∧ rowEx.length = hdrEx.length ∧
    detailBlocksRow hdrEx rowEx = specDetailBlocks hdrEx rowEx :=
  ⟨by decide, rfl, detail_blocks_exclude_rowId hdrEx rowEx (by decide) rfl⟩

/-- Claim C3: the Question Renderer emits, in original row order, exactly one
(identifier value, answer) pair per row whose cell in the selected column is
non-empty, and nothing for rows whose cell is empty; on the 5-row scenario
table with one empty Score it emits exactly 4 blocks, skipping row 2. -/
theorem questionBlocks_spec :
    (∀ (t : Table) (name_col q : String),
      questionBlocks t name_col q =
        (t.rows.filter (fun r => (rowVal t.header r q).isSome)).map
          (fun r => (rowVal t.header r name_col, (rowVal t.header r q).getD ""))) ∧
    (questionBlocks tEx5 "Name" "Score").length = 4 ∧
    questionBlocks tEx5 "Name" "Score" =
      [(some "Alice", "8"), (some "Cara", "10"), (some "Dan", "3"),
       (some "Evan", "9")] := by
  refine ⟨?_, by decide, by decide⟩
  intro t name_col q
  exact filterMap_map_eq_filter_map (fun r => rowVal t.header r q)
    (fun r a => (rowVal t.header r name_col, a)) "" t.rows

/-- Claim C6 as stated is false on the code: loading a CSV without a Row_ID
column prepends one, so the read-back column names differ from the source
(the row count does survive). -/
theorem load_roundtrip_false :
    (loadTable csvNoId).header ≠ csvNoId.header ∧
    (loadTable csvNoId).header = ["Row_ID", "Name"] ∧
    (loadTable csvNoId).rowCount = csvNoId.records.length := by
  decide

/-- Claim C6 (amended): loading a valid CSV preserves the row count exactly,
and the read-back column names are the source columns when `Row_ID` is already
among them, otherwise the source columns with `Row_ID` prepended. -/
theorem load_roundtrip_amended (c : CSV)
    (_hv : ∀ r ∈ c.records, r.length = c.header.length) :
    (loadTable c).rowCount = c.records.length ∧
    (loadTable c).header =
      (if "Row_ID" ∈ c.header then c.header else "Row_ID" :: c.header) := by
  by_cases hmem : "Row_ID" ∈ c.header
  · exact ⟨by simp [loadTable, addRowId, read_csv, Table.rowCount, hmem],
      by simp [loadTable, addRowId, read_csv, hmem]⟩
  · constructor
    · simp [loadTable, addRowId, read_csv, Table.rowCount, hmem, List.length_zip]
    · simp [loadTable, addRowId, read_csv, hmem]

/-- Witness for load_roundtrip_amended: a CSV that already has a Row_ID column
round-trips its column names and row count exactly. -/
theorem load_roundtrip_amended_witness :
    (∀ r ∈ csvWithId.records, r.length = csvWithId.header.length) ∧
    (loadTable csvWithId).rowCount = csvWithId.records.length ∧
    (loadTable csvWithId).header = csvWithId.header := by
  have h := load_roundtrip_amended csvWithId (by decide)
  exact ⟨by decide, h.1, by rw [h.2]; decide⟩

/-- Claim C7: the loader adds a synthetic `Row_ID` column holding 0..N-1
exactly when no `Row_ID` column exists; when one already exists the table is
left unchanged, and in either case the other columns keep their values. -/
theorem addRowId_spec (t : Table) :
    ("Row_ID" ∈ t.header → addRowId t = t) ∧
    ("Row_ID" ∉ t.header →
      (addRowId t).header = "Row_ID" :: t.header ∧
      colValues (addRowId t) "Row_ID" =
        (List.range t.rowCount).map (fun i => some (toString i)) ∧
      ∀ c, c ≠ "Row_ID" → colValues (addRowId t) c = colValues t c) := by
  constructor
  · intro h; simp [addRowId, h]
  · intro h
    refine ⟨by simp [addRowId, h], ?_, ?_⟩
    · have e1 : colValues (addRowId t) "Row_ID" =
          ((List.range t.rows.length).zip t.rows).map (fun p => some (toString p.1)) := by
        simp only [colValues, addRowId, h, if_false, List.map_map]
        apply List.map_congr_left
        intro p _
        simp only [Function.comp_apply]
        exact rowVal_cons_self t.header p.2 "Row_ID" (some (toString p.1))
      rw [e1]
      have e2 : ((List.range t.rows.length).zip t.rows).map (fun p => some (toString p.1)) =
          (((List.range t.rows.length).zip t.rows).map Prod.fst).map
            (fun i => some (toString i)) := by
        rw [List.map_map]; rfl
      rw [e2, List.map_fst_zip _ _ (by simp)]
      rfl
    · intro c hc
      have e1 : colValues (addRowId t) c =
          ((List.range t.rows.length).zip t.rows).map (fun p => rowVal t.header p.2 c) := by
        simp only [colValues, addRowId, h, if_false, List.map_map]
        apply List.map_congr_left
        intro p _
        simp only [Function.comp_apply]
        exact rowVal_cons_ne t.header p.2 "Row_ID" c (some (toString p.1)) hc
      rw [e1]
      have e2 : ((List.range t.rows.length).zip t.rows).map (fun p => rowVal t.header p.2 c) =
          (((List.range t.rows.length).zip t.rows).map Prod.snd).map
            (fun r => rowVal t.header r c) := by
        rw [List.map_map]; rfl
      rw [e2, List.map_snd_zip _ _ (by simp)]
      rfl

/-- Witness for addRowId_spec on a table lacking a Row_ID column. -/
theorem addRowId_spec_witness :
    "Row_ID" ∉ (read_csv csvNoId).header ∧
    (addRowId (read_csv csvNoId)).header = "Row_ID" :: (read_csv csvNoId).header :=
  ⟨by decide, ((addRowId_spec (read_csv csvNoId)).2 (by decide)).1⟩

/-- Claim C8: the default identifier-column index is the position of the first
column whose name contains the substring name case-insensitively, and 0 when
no column name does; in particular a column named Name beats a column named ID
and the synthetic Row_ID column. -/
theorem default_name_index_spec :
    (∀ cols : List String,
      default_name_index cols = (cols.findIdx? nameLike).getD 0) ∧
    default_name_index ["Row_ID", "Name", "ID"] = 1 ∧
    default_name_index ["ID", "Score"] = 0 := by
  refine ⟨?_, by decide, by decide⟩
  intro cols
  cases h : cols.filter nameLike with
  | nil =>
    have h2 : cols.findIdx? nameLike = none := by
      rw [List.findIdx?_eq_none_iff]
      intro x hx
      have h3 := List.filter_eq_nil_iff.mp h x hx
      simpa using h3
    simp [default_name_index, possible_names, h, h2]
  | cons c cs =>
    rw [findIdx_of_filter_eq_cons h]
    simp [default_name_index, possible_names, h]

end Vis
